import Mathlib

/-!
Verification development for the cloud-run-docker-mirror service
(`src/main.go`). The handler `handleMirror` decodes a JSON request,
resolves the effective parallelism, spawns worker goroutines that drain a
buffered job channel, collects one result per mirror job from a buffered
results channel, and renders an aggregate JSON response. The JSON decoding
pipeline (`decodeJSON`) wraps the body in a 1 MB `http.MaxBytesReader` and
classifies decoder failures into HTTP error responses.

The embedding below models:
  * the data model (`Mirror`, `MirrorError`, `Request`, `Response`);
  * the worker pool as a small-step system over an explicit pool state,
    driven by an arbitrary schedule of claim/finish actions — each claim
    atomically removes one job from the jobs channel (Go channel receive),
    each finish pushes exactly one outcome to the results channel;
  * the opaque copy operation `gcrane.Copy` as an oracle
    `copy : Mirror → Option String` (`some msg` = failure with message);
  * the JSON decoder (`encoding/json` with `DisallowUnknownFields`,
    wrapped in `MaxBytesReader`) as an executable character-level parser
    with an explicit read budget of 1048576 bytes, charged once per byte
    consumed, matching the lazy reads the Go decoder performs against the
    size-limited reader.
-/

/-- `type Mirror struct { Src, Dst string }` from src/main.go. -/
structure Mirror where
  Src : String
  Dst : String
deriving DecidableEq

/-- `func (m *Mirror) Name() string` — returns
`fmt.Sprintf("(%s to %s)", m.Src, m.Dst)`. -/
def Mirror.Name (m : Mirror) : String :=
  "(" ++ m.Src ++ " to " ++ m.Dst ++ ")"

/-- `type MirrorError struct { Index int; Name, Err string }`. The index is
always a loop index of `range req.Mirrors`, hence a natural number. -/
structure MirrorError where
  Index : Nat
  Name : String
  Err : String
deriving DecidableEq

/-- `type Request struct { Mirrors []*Mirror; Parallelism int }`.
`Parallelism` is a Go `int` and may be negative. -/
structure Request where
  Mirrors : List Mirror
  Parallelism : Int
deriving DecidableEq

/-- `type Response struct { OK bool; Errors []*MirrorError }`. -/
structure Response where
  OK : Bool
  Errors : List MirrorError
deriving DecidableEq

/-- Lines 141–144 of src/main.go:
`parallelism := req.Parallelism; if parallelism == 0 { parallelism = 5 }`.
Only an exact zero is replaced by the default. -/
def effectiveParallelism (p : Int) : Int :=
  if p = 0 then 5 else p

/-- Line 148: `for i := 0; i < parallelism; i++ { go worker(jobs, results) }`
starts `max parallelism 0` goroutines, i.e. `Int.toNat` of the resolved
parallelism. -/
def workersSpawned (req : Request) : Nat :=
  (effectiveParallelism req.Parallelism).toNat

/-- The closure built for job `i` over mirror `m` (lines 156–167): invoke
the opaque copy; on failure return `&MirrorError{Index: i, Name: m.Name(),
Err: err.Error()}`, on success return nil. -/
def runJob (copy : Mirror → Option String) (i : Nat) (m : Mirror) :
    Option MirrorError :=
  (copy m).map (fun e => ⟨i, m.Name, e⟩)

/-- `for i, m := range req.Mirrors` enumerates the mirrors with their
0-based indices, starting from `n`. -/
def enumFrom : Nat → List Mirror → List (Nat × Mirror)
  | _, [] => []
  | n, m :: ms => (n, m) :: enumFrom (n + 1) ms

/-- State of one batch: the jobs channel contents (already fully enqueued
and closed — the channel is buffered to `len(req.Mirrors)` so the
coordinator never blocks while enqueuing), the per-worker slot (the job a
worker has received and is currently executing, if any), and the results
channel contents in arrival order (buffered to `len(req.Mirrors)`, so
worker sends never block). -/
structure PoolState where
  queue : List (Nat × Mirror)
  workers : List (Option (Nat × Mirror))
  results : List (Option MirrorError)
deriving DecidableEq

/-- One scheduling decision: worker `w` receives the next job from the
jobs channel (`for j := range jobs`), or worker `w` finishes its current
job and sends the outcome on the results channel (`results <- j()`). -/
inductive PoolAction where
  | claim (w : Nat)
  | finish (w : Nat)
deriving DecidableEq

/-- Small-step transition of the pool. Channel receive is atomic: a claim
hands the head of the queue to exactly one idle worker. A finish appends
exactly one outcome for the claimed job. Inapplicable actions leave the
state unchanged. -/
def step (copy : Mirror → Option String) (st : PoolState) (a : PoolAction) :
    PoolState :=
  match a with
  | .claim w =>
    match st.workers[w]?, st.queue with
    | some none, j :: rest =>
      { st with queue := rest, workers := st.workers.set w (some j) }
    | _, _ => st
  | .finish w =>
    match st.workers[w]? with
    | some (some (i, m)) =>
      { st with workers := st.workers.set w none,
                results := st.results ++ [runJob copy i m] }
    | _ => st

/-- Run the pool under an explicit interleaving schedule. -/
def runPool (copy : Mirror → Option String) (sched : List PoolAction)
    (st : PoolState) : PoolState :=
  sched.foldl (step copy) st

/-- Initial state: all jobs enqueued (lines 152–169), `w` idle workers
spawned (line 148–150), no results yet. -/
def initState (w : Nat) (jobs : List (Nat × Mirror)) : PoolState :=
  ⟨jobs, List.replicate w none, []⟩

/-- Lines 178–184: `if len(errors) > 0 { jsonResponse(&Response{Errors:
errors}) } else { jsonResponse(&Response{OK: true}) }`. In the first
branch `OK` keeps its zero value `false`; in the second `Errors` keeps its
zero value nil. -/
def buildResponse (errs : List MirrorError) : Response :=
  if errs.length > 0 then ⟨false, errs⟩ else ⟨true, []⟩

/-- The coordinator for one decoded request under one schedule. The drain
loop (lines 171–176) receives exactly `len(req.Mirrors)` results and keeps
the non-nil ones in arrival order; the response exists exactly when the
schedule lets that many results arrive. `none` means the drain loop is
still blocked on the results channel when the schedule runs out. -/
def handleRequest (copy : Mirror → Option String) (req : Request)
    (sched : List PoolAction) : Option Response :=
  let st := runPool copy sched
    (initState (workersSpawned req) (enumFrom 0 req.Mirrors))
  if st.results.length = req.Mirrors.length then
    some (buildResponse (st.results.filterMap id))
  else
    none

/-- JSON serialization of a `Response` (`json.Marshal` with the struct
tags `json:"ok"` and `json:"errors,omitempty"`): the errors array is
omitted entirely when the slice is empty or nil. String escaping is
modelled for quotes and backslashes, which covers every message the
handler itself constructs. -/
def quoteJson (s : String) : String :=
  "\"" ++ String.join (s.toList.map (fun c =>
    if c = '"' then "\\\"" else if c = '\\' then "\\\\" else String.mk [c]
    )) ++ "\""

/-- Serialization of one `MirrorError` per its struct tags. -/
def marshalMirrorError (e : MirrorError) : String :=
  "\x7b\"index\":" ++ toString e.Index ++ ",\"name\":" ++ quoteJson e.Name
    ++ ",\"error\":" ++ quoteJson e.Err ++ "\x7d"

/-- Serialization of a `Response` with `omitempty` on `errors`. -/
def marshalResponse (r : Response) : String :=
  if r.Errors.isEmpty then
    "\x7b\"ok\":" ++ (if r.OK then "true" else "false") ++ "\x7d"
  else
    "\x7b\"ok\":" ++ (if r.OK then "true" else "false") ++ ",\"errors\":["
      ++ String.intercalate "," (r.Errors.map marshalMirrorError) ++ "]\x7d"

/-! ### The JSON decoding pipeline

`decodeJSON` (src/main.go lines 225–261) wraps the request body in
`http.MaxBytesReader(w, r.Body, 1048576)` and decodes with a
`json.Decoder` that has `DisallowUnknownFields` set. The decoder reads
lazily: bytes are pulled from the size-limited reader only as the scanner
needs them, so a body whose first JSON value is complete within the limit
never triggers the size check, and `Decode` reads only the first JSON
value — trailing bytes are never requested. The model below makes the
byte budget explicit: consuming a character requires one unit of budget;
consuming while the budget is exhausted is the `MaxBytesReader` error,
while running out of input is an EOF condition. Peeking at a delimiter
that terminates a number without consuming it is not charged (an
idealization of the buffered read-ahead, which never matters away from
the exact limit boundary). The number grammar is simplified (leading
zeros are accepted) and a malformed `\u` escape shorter than four
characters reports exhaustion rather than a syntax error; neither corner
is exercised by any claim.
-/

/-- The `MaxBytesReader` limit: 1048576 bytes (1 MB). -/
def readLimit : Nat := 1048576

/-- Failures of the scanning phase: the size limit was hit, the input
ended inside a value, or a character violates the JSON grammar (the
position is the count of characters consumed up to and including it). -/
inductive PErr where
  | tooLarge
  | uneof
  | synErr (pos : Nat)
deriving DecidableEq

/-- Parsed JSON values; every node records the position just after its
last character, mirroring the offsets `encoding/json` reports in
`UnmarshalTypeError`. A number is `some i` when written as a plain
integer and `none` when it has a fraction or exponent part. -/
inductive JsonValue where
  | null (endPos : Nat)
  | bool (b : Bool) (endPos : Nat)
  | num (i : Option Int) (endPos : Nat)
  | str (s : String) (endPos : Nat)
  | arr (elems : List JsonValue) (endPos : Nat)
  | obj (members : List (String × JsonValue)) (endPos : Nat)

/-- Position just after the last character of a value. -/
def JsonValue.endPos : JsonValue → Nat
  | .null p => p
  | .bool _ p => p
  | .num _ p => p
  | .str _ p => p
  | .arr _ p => p
  | .obj _ p => p

/-- Skip JSON whitespace, charging the budget per consumed character. -/
def skipWs : List Char → Nat → Nat → Except PErr (List Char × Nat × Nat)
  | [], bud, pos => .ok ([], bud, pos)
  | c :: cs, bud, pos =>
    if c = ' ' ∨ c = '\t' ∨ c = '\n' ∨ c = '\r' then
      match bud with
      | 0 => .error .tooLarge
      | b + 1 => skipWs cs b (pos + 1)
    else .ok (c :: cs, bud, pos)

/-- Value of a hexadecimal digit. -/
def hexVal (c : Char) : Option Nat :=
  if '0' ≤ c ∧ c ≤ '9' then some (c.toNat - 48)
  else if 'a' ≤ c ∧ c ≤ 'f' then some (c.toNat - 87)
  else if 'A' ≤ c ∧ c ≤ 'F' then some (c.toNat - 55)
  else none

/-- Single-character escape sequences accepted after a backslash. -/
def escChar (c : Char) : Option Char :=
  if c = '"' then some '"'
  else if c = '\\' then some '\\'
  else if c = '/' then some '/'
  else if c = 'b' then some (Char.ofNat 8)
  else if c = 'f' then some (Char.ofNat 12)
  else if c = 'n' then some '\n'
  else if c = 'r' then some '\r'
  else if c = 't' then some '\t'
  else none

/-- Scan a string body after the opening quote, returning the decoded
string and the input after the closing quote. -/
def parseStringBody : List Char → Nat → Nat → List Char →
    Except PErr (String × List Char × Nat × Nat)
  | [], _, _, _ => .error .uneof
  | _ :: _, 0, _, _ => .error .tooLarge
  | c :: cs, b + 1, pos, acc =>
    if c = '"' then .ok (String.mk acc.reverse, cs, b, pos + 1)
    else if c = '\\' then
      match cs, b with
      | [], _ => .error .uneof
      | _ :: _, 0 => .error .tooLarge
      | e :: cs2, b2 + 1 =>
        if e = 'u' then
          match cs2, b2 with
          | h1 :: h2 :: h3 :: h4 :: cs3, b3 + 4 =>
            match hexVal h1, hexVal h2, hexVal h3, hexVal h4 with
            | some x1, some x2, some x3, some x4 =>
              parseStringBody cs3 b3 (pos + 6)
                (Char.ofNat (((x1 * 16 + x2) * 16 + x3) * 16 + x4) :: acc)
            | _, _, _, _ => .error (.synErr (pos + 2))
          | _, _ =>
            if cs2.length ≤ b2 then .error .uneof else .error .tooLarge
        else
          match escChar e with
          | some ec => parseStringBody cs2 b2 (pos + 2) (ec :: acc)
          | none => .error (.synErr (pos + 2))
    else parseStringBody cs b (pos + 1) (c :: acc)

/-- Consume a maximal run of decimal digits; the terminating character is
peeked without being charged. -/
def takeDigits : List Char → Nat → Nat → List Char →
    Except PErr (List Char × List Char × Nat × Nat)
  | [], bud, pos, acc => .ok (acc.reverse, [], bud, pos)
  | c :: cs, bud, pos, acc =>
    if c.isDigit then
      match bud with
      | 0 => .error .tooLarge
      | b + 1 => takeDigits cs b (pos + 1) (c :: acc)
    else .ok (acc.reverse, c :: cs, bud, pos)

/-- Numeric value of a digit run. -/
def digitsVal (ds : List Char) : Nat :=
  ds.foldl (fun a c => a * 10 + (c.toNat - 48)) 0

/-- Consume a non-empty run of decimal digits; an empty run is a syntax
error at the offending character. -/
def digitsRun1 (s : List Char) (bud pos : Nat) :
    Except PErr (List Char × List Char × Nat × Nat) :=
  match takeDigits s bud pos [] with
  | .error e => .error e
  | .ok (ds, s2, b2, p2) =>
    if ds.isEmpty then .error (.synErr (p2 + 1)) else .ok (ds, s2, b2, p2)

/-- Scan an exponent part, after the `e`/`E` has been consumed: an
optional sign followed by a non-empty digit run. -/
def parseExp (s : List Char) (bud pos : Nat) :
    Except PErr (List Char × Nat × Nat) :=
  let signed : Except PErr (List Char × Nat × Nat) :=
    match s, bud with
    | '-' :: cs, b + 1 => .ok (cs, b, pos + 1)
    | '-' :: _, 0 => .error .tooLarge
    | '+' :: cs, b + 1 => .ok (cs, b, pos + 1)
    | '+' :: _, 0 => .error .tooLarge
    | _, _ => .ok (s, bud, pos)
  match signed with
  | .error e => .error e
  | .ok (s1, b1, p1) =>
    match digitsRun1 s1 b1 p1 with
    | .error e => .error e
    | .ok (_, s2, b2, p2) => .ok (s2, b2, p2)

/-- Scan a JSON number (simplified grammar: optional minus, digit run,
optional fraction, optional exponent; leading zeros accepted). The value
is retained only for plain integers; a fraction or exponent makes it
`none`, which is what makes `encoding/json` refuse it for an `int`
field. -/
def parseNumber (s : List Char) (bud pos : Nat) :
    Except PErr (JsonValue × List Char × Nat × Nat) :=
  let signed : Except PErr (Bool × List Char × Nat × Nat) :=
    match s, bud with
    | '-' :: cs, b + 1 => .ok (true, cs, b, pos + 1)
    | '-' :: _, 0 => .error .tooLarge
    | _, _ => .ok (false, s, bud, pos)
  match signed with
  | .error e => .error e
  | .ok (neg, s1, b1, p1) =>
    match digitsRun1 s1 b1 p1 with
    | .error e => .error e
    | .ok (ds, s2, b2, p2) =>
      let ival : Int :=
        if neg then -(digitsVal ds : Int) else (digitsVal ds : Int)
      match s2, b2 with
      | '.' :: cs, b3 + 1 =>
        (match digitsRun1 cs b3 (p2 + 1) with
         | .error e => .error e
         | .ok (_, s3, b4, p3) =>
           match s3, b4 with
           | 'e' :: cs2, b5 + 1 =>
             (parseExp cs2 b5 (p3 + 1)).map
               (fun r => (.num none r.2.2, r.1, r.2.1, r.2.2))
           | 'e' :: _, 0 => .error .tooLarge
           | 'E' :: cs2, b5 + 1 =>
             (parseExp cs2 b5 (p3 + 1)).map
               (fun r => (.num none r.2.2, r.1, r.2.1, r.2.2))
           | 'E' :: _, 0 => .error .tooLarge
           | _, _ => .ok (.num none p3, s3, b4, p3))
      | '.' :: _, 0 => .error .tooLarge
      | 'e' :: cs2, b5 + 1 =>
        (parseExp cs2 b5 (p2 + 1)).map
          (fun r => (.num none r.2.2, r.1, r.2.1, r.2.2))
      | 'e' :: _, 0 => .error .tooLarge
      | 'E' :: cs2, b5 + 1 =>
        (parseExp cs2 b5 (p2 + 1)).map
          (fun r => (.num none r.2.2, r.1, r.2.1, r.2.2))
      | 'E' :: _, 0 => .error .tooLarge
      | _, _ => .ok (.num (some ival) p2, s2, b2, p2)

/-- Consume an expected literal tail (for `true`, `false`, `null`). -/
def expectLit : List Char → List Char → Nat → Nat →
    Except PErr (List Char × Nat × Nat)
  | [], s, bud, pos => .ok (s, bud, pos)
  | _ :: _, [], _, _ => .error .uneof
  | l :: ls, c :: cs, bud, pos =>
    match bud with
    | 0 => .error .tooLarge
    | b + 1 =>
      if c = l then expectLit ls cs b (pos + 1) else .error (.synErr (pos + 1))

/-! The scanner for full values. The fuel argument only bounds nesting
and element counts; every recursive descent both consumes budget and
decreases fuel, and `decodeCore` supplies enough fuel that the budget is
always exhausted first. -/

/-- Parsing mode: one value, array elements after the opening bracket, or
object members after the opening brace (with the elements seen so far). -/
inductive PMode where
  | value
  | elems (isFirst : Bool) (acc : List JsonValue)
  | members (isFirst : Bool) (acc : List (String × JsonValue))

/-- The scanner for full values, as one structurally fuel-recursive
function (so that applications to literal inputs reduce definitionally).
The fuel only bounds nesting and element counts; every recursive descent
both consumes budget and decreases fuel, and `decodeCore` supplies enough
fuel that the budget is always exhausted first. -/
def parseP : Nat → PMode → List Char → Nat → Nat →
    Except PErr (JsonValue × List Char × Nat × Nat)
  | 0, _, _, _, _ => .error .uneof
  | fuel + 1, mode, s, bud, pos =>
    match skipWs s bud pos with
    | .error e => .error e
    | .ok (s1, b1, p1) =>
      match s1, b1 with
      | [], _ => .error .uneof
      | _ :: _, 0 => .error .tooLarge
      | c :: cs, b2 + 1 =>
        match mode with
        | .value =>
          if c = '\x7b' then parseP fuel (.members true []) cs b2 (p1 + 1)
          else if c = '[' then parseP fuel (.elems true []) cs b2 (p1 + 1)
          else if c = '"' then
            match parseStringBody cs b2 (p1 + 1) [] with
            | .error e => .error e
            | .ok (str, s2, b3, p2) => .ok (.str str p2, s2, b3, p2)
          else if c = 't' then
            match expectLit ['r', 'u', 'e'] cs b2 (p1 + 1) with
            | .error e => .error e
            | .ok (s2, b3, p2) => .ok (.bool true p2, s2, b3, p2)
          else if c = 'f' then
            match expectLit ['a', 'l', 's', 'e'] cs b2 (p1 + 1) with
            | .error e => .error e
            | .ok (s2, b3, p2) => .ok (.bool false p2, s2, b3, p2)
          else if c = 'n' then
            match expectLit ['u', 'l', 'l'] cs b2 (p1 + 1) with
            | .error e => .error e
            | .ok (s2, b3, p2) => .ok (.null p2, s2, b3, p2)
          else if c = '-' ∨ c.isDigit then parseNumber (c :: cs) (b2 + 1) p1
          else .error (.synErr (p1 + 1))
        | .elems isFirst acc =>
          if isFirst ∧ c = ']' then .ok (.arr [] (p1 + 1), cs, b2, p1 + 1)
          else
            match parseP fuel .value (c :: cs) (b2 + 1) p1 with
            | .error e => .error e
            | .ok (v, s2, b3, p2) =>
              match skipWs s2 b3 p2 with
              | .error e => .error e
              | .ok (s3, b4, p3) =>
                match s3, b4 with
                | [], _ => .error .uneof
                | _ :: _, 0 => .error .tooLarge
                | d :: ds, b5 + 1 =>
                  if d = ',' then
                    parseP fuel (.elems false (v :: acc)) ds b5 (p3 + 1)
                  else if d = ']' then
                    .ok (.arr (v :: acc).reverse (p3 + 1), ds, b5, p3 + 1)
                  else .error (.synErr (p3 + 1))
        | .members isFirst acc =>
          if isFirst ∧ c = '\x7d' then .ok (.obj [] (p1 + 1), cs, b2, p1 + 1)
          else if c = '"' then
            match parseStringBody cs b2 (p1 + 1) [] with
            | .error e => .error e
            | .ok (k, s2, b3, p2) =>
              match skipWs s2 b3 p2 with
              | .error e => .error e
              | .ok (s3, b4, p3) =>
                match s3, b4 with
                | [], _ => .error .uneof
                | _ :: _, 0 => .error .tooLarge
                | d :: ds, b5 + 1 =>
                  if d = ':' then
                    match parseP fuel .value ds b5 (p3 + 1) with
                    | .error e => .error e
                    | .ok (v, s4, b6, p4) =>
                      match skipWs s4 b6 p4 with
                      | .error e => .error e
                      | .ok (s5, b7, p5) =>
                        match s5, b7 with
                        | [], _ => .error .uneof
                        | _ :: _, 0 => .error .tooLarge
                        | e :: es, b8 + 1 =>
                          if e = ',' then
                            parseP fuel (.members false ((k, v) :: acc)) es b8 (p5 + 1)
                          else if e = '\x7d' then
                            .ok (.obj ((k, v) :: acc).reverse (p5 + 1), es, b8, p5 + 1)
                          else .error (.synErr (p5 + 1))
                  else .error (.synErr (p3 + 1))
          else .error (.synErr (p1 + 1))

/-- Scan one JSON value (after optional leading whitespace). -/
def parseValue (fuel : Nat) (s : List Char) (bud pos : Nat) :
    Except PErr (JsonValue × List Char × Nat × Nat) :=
  parseP fuel .value s bud pos

/-! ### Unmarshalling into `Request`

`encoding/json` matches struct fields first exactly, then ASCII
case-insensitively; with `DisallowUnknownFields` a key matching no field
is an error. Members are processed left to right; the first error wins
(Go records only the first error and discards the rest), and a duplicate
key overwrites the earlier value. A JSON `null` leaves a string or int
target untouched and resets a slice target to nil. A `null` array
element decodes in Go to a nil `*Mirror`; the handler would dereference
it later, which is outside this model — it is represented here by the
zero `Mirror`. -/

/-- Errors the Go decoding pipeline can surface to `decodeJSON`,
mirroring the cases of the switch on lines 235–257 of src/main.go. -/
inductive GoErr where
  | scanErr (pos : Nat)
  | unexpectedEOF
  | typeErr (field : String) (pos : Nat)
  | unknownField (name : String)
  | eof
  | tooLarge
deriving DecidableEq

/-- ASCII lower-casing, as used by the field matcher. -/
def lowerAscii (c : Char) : Char :=
  if 'A' ≤ c ∧ c ≤ 'Z' then Char.ofNat (c.toNat + 32) else c

/-- Case-insensitive field-name comparison (`strings.EqualFold` on the
ASCII names involved here). -/
def eqFold (a b : String) : Bool :=
  a.toList.map lowerAscii == b.toList.map lowerAscii

/-- Store one object member into a `Mirror` being decoded. -/
def setMirrorField (acc : Mirror) (k : String) (v : JsonValue) :
    Except GoErr Mirror :=
  if eqFold k "src" then
    match v with
    | .str s _ => .ok { acc with Src := s }
    | .null _ => .ok acc
    | _ => .error (.typeErr "mirrors.src" v.endPos)
  else if eqFold k "dst" then
    match v with
    | .str s _ => .ok { acc with Dst := s }
    | .null _ => .ok acc
    | _ => .error (.typeErr "mirrors.dst" v.endPos)
  else .error (.unknownField k)

/-- Decode one element of the `mirrors` array. -/
def unmarshalMirror : JsonValue → Except GoErr Mirror
  | .obj members _ =>
    members.foldlM (fun acc kv => setMirrorField acc kv.1 kv.2) ⟨"", ""⟩
  | .null _ => .ok ⟨"", ""⟩
  | v => .error (.typeErr "mirrors" v.endPos)

/-- Store one top-level object member into the `Request` being decoded. -/
def setRequestField (acc : Request) (k : String) (v : JsonValue) :
    Except GoErr Request :=
  if eqFold k "mirrors" then
    match v with
    | .arr elems _ =>
      (elems.mapM unmarshalMirror).map (fun ms => { acc with Mirrors := ms })
    | .null _ => .ok { acc with Mirrors := [] }
    | _ => .error (.typeErr "mirrors" v.endPos)
  else if eqFold k "parallelism" then
    match v with
    | .num (some i) _ => .ok { acc with Parallelism := i }
    | .num none p => .error (.typeErr "parallelism" p)
    | .null _ => .ok acc
    | _ => .error (.typeErr "parallelism" v.endPos)
  else .error (.unknownField k)

/-- Decode the top-level value into a `Request` (zero value
`{Mirrors: nil, Parallelism: 0}`). -/
def unmarshalRequest : JsonValue → Except GoErr Request
  | .obj members _ =>
    members.foldlM (fun acc kv => setRequestField acc kv.1 kv.2) ⟨[], 0⟩
  | v => .error (.typeErr "" v.endPos)

/-- The full decode of one request body: `MaxBytesReader` budget of
`readLimit` bytes, scan of the first JSON value, then unmarshalling.
On success the unread remainder of the body is returned alongside the
request: `dec.Decode` is called exactly once, so trailing bytes are
never requested, let alone validated. An empty (or all-whitespace)
body is `io.EOF`; a body whose first value is truncated is
`io.ErrUnexpectedEOF`; a body that forces a read past the budget is the
`MaxBytesReader` error. -/
def decodeCore (body : List Char) : Except GoErr (Request × List Char) :=
  match skipWs body readLimit 0 with
  | .error _ => .error .tooLarge
  | .ok (s1, b1, p1) =>
    match s1 with
    | [] => .error .eof
    | _ :: _ =>
      match parseValue (2 * b1 + 4) s1 b1 p1 with
      | .error .tooLarge => .error .tooLarge
      | .error .uneof => .error .unexpectedEOF
      | .error (.synErr p) => .error (.scanErr p)
      | .ok (v, rest, _, _) =>
        match unmarshalRequest v with
        | .error e => .error e
        | .ok req => .ok (req, rest)

/-- `type jsonError struct { status int; msg string }`. -/
structure jsonError where
  status : Nat
  msg : String
deriving DecidableEq

/-- The switch on lines 235–257 of src/main.go, mapping each decoder
failure to an HTTP status and message. -/
def classifyJsonErr : GoErr → jsonError
  | .scanErr pos =>
    ⟨400, "Request body contains badly-formed JSON (at position "
      ++ toString pos ++ ")"⟩
  | .unexpectedEOF => ⟨400, "Request body contains badly-formed JSON"⟩
  | .typeErr f pos =>
    ⟨400, "Request body contains an invalid value for the \"" ++ f
      ++ "\" field (at position " ++ toString pos ++ ")"⟩
  | .unknownField k =>
    ⟨400, "Request body contains unknown field \"" ++ k ++ "\""⟩
  | .eof => ⟨400, "Request body must not be empty"⟩
  | .tooLarge => ⟨413, "Request body must not be larger than 1MB"⟩

/-- `decodeJSON` (lines 225–261): decode the body, classifying any
failure into a `jsonError`. -/
def decodeJSON (body : List Char) : Except jsonError Request :=
  match decodeCore body with
  | .error e => .error (classifyJsonErr e)
  | .ok (req, _) => .ok req

/-- Observable outcome of one request: an HTTP error from the decoding
pipeline (`http.Error(w, jerr.msg, jerr.status)`), a 200 JSON response,
or no response at all (the coordinator still blocked on the results
channel). -/
inductive HandlerResult where
  | httpError (status : Nat) (msg : String)
  | response (r : Response)
  | noResponse
deriving DecidableEq

/-- `handleMirror` (lines 126–185) end to end, for one request body, one
copy oracle and one worker-pool schedule. -/
def handleMirror (copy : Mirror → Option String) (body : List Char)
    (sched : List PoolAction) : HandlerResult :=
  match decodeJSON body with
  | .error e => .httpError e.status e.msg
  | .ok req =>
    match handleRequest copy req sched with
    | some r => .response r
    | none => .noResponse

/-! ### Pool invariant

Every reachable pool state partitions the original job list into the
jobs still queued, the jobs currently claimed by a worker, and the jobs
whose outcome has been pushed to the results channel; the results list
is exactly the outcomes of that last group. -/

/-- Jobs currently claimed by some worker. -/
def runningJobs (st : PoolState) : List (Nat × Mirror) :=
  st.workers.filterMap id

/-- The outcome of one enumerated job. -/
def jobOutcome (copy : Mirror → Option String) (jm : Nat × Mirror) :
    Option MirrorError :=
  runJob copy jm.1 jm.2

/-- The pool invariant relating a state to the submitted job list. -/
def PoolInv (copy : Mirror → Option String) (jobs0 : List (Nat × Mirror))
    (st : PoolState) : Prop :=
  ∃ done : List (Nat × Mirror),
    st.results = done.map (jobOutcome copy) ∧
    (st.queue : Multiset (Nat × Mirror)) + ↑(runningJobs st) + ↑done = ↑jobs0

lemma filterMap_id_replicate_none {α : Type} (n : Nat) :
    (List.replicate n (none : Option α)).filterMap id = [] := by
  induction n with
  | zero => rfl
  | succ n ih => simp [List.replicate_succ, ih]

lemma filterMap_id_set_some {α : Type} :
    ∀ (l : List (Option α)) (w : Nat) (j : α), l[w]? = some none →
    ((l.set w (some j)).filterMap id).Perm (j :: l.filterMap id) := by
  intro l
  induction l with
  | nil => intro w j h; simp at h
  | cons a t ih =>
    intro w j h
    cases w with
    | zero =>
      simp at h
      subst h
      simp
    | succ w =>
      simp at h
      cases a with
      | none => simpa using ih w j h
      | some b =>
        simpa using ((ih w j h).cons b).trans (List.Perm.swap j b _)

lemma filterMap_id_set_none {α : Type} :
    ∀ (l : List (Option α)) (w : Nat) (j : α), l[w]? = some (some j) →
    (l.filterMap id).Perm (j :: (l.set w none).filterMap id) := by
  intro l
  induction l with
  | nil => intro w j h; simp at h
  | cons a t ih =>
    intro w j h
    cases w with
    | zero =>
      simp at h
      subst h
      simp
    | succ w =>
      simp at h
      cases a with
      | none => simpa using ih w j h
      | some b =>
        simpa using ((ih w j h).cons b).trans (List.Perm.swap b j _).symm

lemma poolInv_step (copy : Mirror → Option String)
    (jobs0 : List (Nat × Mirror)) (st : PoolState) (a : PoolAction)
    (h : PoolInv copy jobs0 st) : PoolInv copy jobs0 (step copy st a) := by
  obtain ⟨done, hres, hsum⟩ := h
  cases a with
  | claim w =>
    simp only [step]
    split
    · next j rest hw hq =>
      refine ⟨done, hres, ?_⟩
      rw [hq] at hsum
      have hfm := Multiset.coe_eq_coe.mpr
        (filterMap_id_set_some st.workers w j hw)
      simp only [runningJobs] at hsum ⊢
      rw [hfm]
      simp only [← Multiset.cons_coe, Multiset.cons_add, Multiset.add_cons]
        at hsum ⊢
      exact hsum
    · exact ⟨done, hres, hsum⟩
  | finish w =>
    simp only [step]
    split
    · next i m hw =>
      refine ⟨done ++ [(i, m)], ?_, ?_⟩
      · rw [hres]; simp [jobOutcome]
      · have hfm := Multiset.coe_eq_coe.mpr
          (filterMap_id_set_none st.workers w (i, m) hw)
        simp only [runningJobs] at hsum ⊢
        rw [hfm] at hsum
        simp only [← Multiset.coe_add, ← Multiset.cons_coe,
          Multiset.cons_add, Multiset.add_cons, ← Multiset.coe_singleton,
          Multiset.singleton_add, Multiset.coe_nil, add_zero] at hsum ⊢
        exact hsum
    · exact ⟨done, hres, hsum⟩

lemma poolInv_runPool (copy : Mirror → Option String)
    (jobs0 : List (Nat × Mirror)) :
    ∀ (sched : List PoolAction) (st : PoolState), PoolInv copy jobs0 st →
    PoolInv copy jobs0 (runPool copy sched st) := by
  intro sched
  induction sched with
  | nil => intro st h; exact h
  | cons a rest ih =>
    intro st h
    exact ih (step copy st a) (poolInv_step copy jobs0 st a h)

lemma poolInv_init (copy : Mirror → Option String) (w : Nat)
    (jobs0 : List (Nat × Mirror)) : PoolInv copy jobs0 (initState w jobs0) :=
  ⟨[], rfl, by simp [initState, runningJobs, filterMap_id_replicate_none]⟩

lemma results_perm_of_length (copy : Mirror → Option String)
    (jobs0 : List (Nat × Mirror)) (st : PoolState)
    (h : PoolInv copy jobs0 st) (hlen : st.results.length = jobs0.length) :
    st.results.Perm (jobs0.map (jobOutcome copy)) := by
  obtain ⟨done, hres, hsum⟩ := h
  have hd : done.length = jobs0.length := by
    rw [hres] at hlen; simpa using hlen
  have hcard := congrArg Multiset.card hsum
  simp only [Multiset.card_add, Multiset.coe_card, List.length_append]
    at hcard
  have hq : st.queue = [] := List.length_eq_zero.mp (by omega)
  have hr : runningJobs st = [] := List.length_eq_zero.mp (by omega)
  rw [hq, hr] at hsum
  simp only [Multiset.coe_nil, zero_add] at hsum
  have hperm : done.Perm jobs0 := Multiset.coe_eq_coe.mp hsum
  rw [hres]
  exact hperm.map (jobOutcome copy)

/-! ### Reachability of completion

With at least one worker, the schedule in which worker 0 alone claims and
finishes every job drives the pool to completion, with the results in
submission order. -/

/-- Worker 0 claims and finishes `n` jobs in sequence. -/
def serialSched : Nat → List PoolAction
  | 0 => []
  | n + 1 => .claim 0 :: .finish 0 :: serialSched n

lemma runPool_serial (copy : Mirror → Option String) :
    ∀ (jobs : List (Nat × Mirror)) (ws : List (Option (Nat × Mirror)))
      (res : List (Option MirrorError)),
    runPool copy (serialSched jobs.length) ⟨jobs, none :: ws, res⟩ =
      ⟨[], none :: ws, res ++ jobs.map (jobOutcome copy)⟩ := by
  intro jobs
  induction jobs with
  | nil => intro ws res; simp [serialSched, runPool]
  | cons j tl ih =>
    intro ws res
    obtain ⟨i, m⟩ := j
    have s1 : step copy ⟨(i, m) :: tl, none :: ws, res⟩ (.claim 0) =
        ⟨tl, some (i, m) :: ws, res⟩ := by
      simp [step]
    have s2 : step copy ⟨tl, some (i, m) :: ws, res⟩ (.finish 0) =
        ⟨tl, none :: ws, res ++ [runJob copy i m]⟩ := by
      simp [step]
    simp only [List.length_cons, serialSched, runPool, List.foldl_cons]
    rw [s1, s2]
    have := ih ws (res ++ [runJob copy i m])
    simp only [runPool] at this
    rw [this]
    simp [jobOutcome]

lemma enumFrom_length : ∀ (n : Nat) (ms : List Mirror),
    (enumFrom n ms).length = ms.length := by
  intro n ms
  induction ms generalizing n with
  | nil => rfl
  | cons m tl ih => simp [enumFrom, ih]

/-- **C1.** For every batch executed with at least one worker: whenever
the coordinator produces a response under some schedule, it has collected
exactly one outcome per submitted job — the results list is a permutation
of the per-job outcomes, so each job was executed exactly once — and at
least one schedule does produce the response. -/
theorem handleMirror_collects_all_outcomes (copy : Mirror → Option String)
    (req : Request) (h : 1 ≤ workersSpawned req) :
    (∀ sched r, handleRequest copy req sched = some r →
      (runPool copy sched
        (initState (workersSpawned req) (enumFrom 0 req.Mirrors))).results.length
          = req.Mirrors.length ∧
      (runPool copy sched
        (initState (workersSpawned req) (enumFrom 0 req.Mirrors))).results.Perm
          ((enumFrom 0 req.Mirrors).map (jobOutcome copy)))
    ∧ (∃ sched, handleRequest copy req sched =
        some (buildResponse
          (((enumFrom 0 req.Mirrors).map (jobOutcome copy)).filterMap id))) := by
  constructor
  · intro sched r hr
    have hlen : (runPool copy sched
        (initState (workersSpawned req) (enumFrom 0 req.Mirrors))).results.length
          = req.Mirrors.length := by
      by_contra hne
      simp only [handleRequest, if_neg hne] at hr
      exact Option.noConfusion hr
    refine ⟨hlen, ?_⟩
    have hinv := poolInv_runPool copy (enumFrom 0 req.Mirrors) sched _
      (poolInv_init copy (workersSpawned req) (enumFrom 0 req.Mirrors))
    exact results_perm_of_length copy _ _ hinv
      (by rw [hlen, enumFrom_length])
  · obtain ⟨w, hw⟩ : ∃ w, workersSpawned req = w + 1 :=
      ⟨workersSpawned req - 1, by omega⟩
    refine ⟨serialSched (enumFrom 0 req.Mirrors).length, ?_⟩
    have hrun := runPool_serial copy (enumFrom 0 req.Mirrors)
      (List.replicate w none) []
    simp only [handleRequest, hw, initState, List.replicate_succ] at *
    rw [hrun]
    simp [enumFrom_length]

/-! ### Response shape -/

lemma buildResponse_errors (errs : List MirrorError) :
    (buildResponse errs).Errors = errs := by
  unfold buildResponse
  split
  · rfl
  · next h =>
    have : errs = [] := by
      simpa using List.length_eq_zero.mp (by omega)
    rw [this]

lemma buildResponse_shape (errs : List MirrorError) :
    ((buildResponse errs).OK = true ↔ (buildResponse errs).Errors = []) ∧
    ((buildResponse errs).OK = true →
      marshalResponse (buildResponse errs) = "\x7b\"ok\":true\x7d") := by
  unfold buildResponse
  split
  · next h =>
    constructor
    · constructor
      · intro hfalse; exact absurd hfalse (by simp)
      · intro hnil
        exact absurd hnil (by simpa using List.length_pos.mp h)
    · intro hfalse; exact absurd hfalse (by simp)
  · constructor
    · simp
    · intro _
      rfl

lemma handleMirror_response_inv (copy : Mirror → Option String)
    (body : List Char) (sched : List PoolAction) (r : Response)
    (h : handleMirror copy body sched = .response r) :
    ∃ errs, r = buildResponse errs := by
  unfold handleMirror at h
  cases hd : decodeJSON body with
  | error e => simp only [hd] at h; exact HandlerResult.noConfusion h
  | ok req =>
    simp only [hd] at h
    cases hh : handleRequest copy req sched with
    | none => simp only [hh] at h; exact HandlerResult.noConfusion h
    | some r2 =>
      simp only [hh] at h
      have hr2 : r2 = r := by injection h
      unfold handleRequest at hh
      simp only at hh
      split at hh
      · injection hh with heq
        subst hr2
        exact ⟨_, heq.symm⟩
      · exact Option.noConfusion hh

/-- **C2.** Every 200 response produced by the batch handler satisfies:
`ok` is true iff `errors` is empty, and when `ok` is true the marshalled
body omits the errors array entirely. -/
theorem response_ok_iff_no_errors (copy : Mirror → Option String)
    (body : List Char) (sched : List PoolAction) (r : Response)
    (h : handleMirror copy body sched = .response r) :
    (r.OK = true ↔ r.Errors = []) ∧
    (r.OK = true → marshalResponse r = "\x7b\"ok\":true\x7d") := by
  obtain ⟨errs, rfl⟩ := handleMirror_response_inv copy body sched r h
  exact buildResponse_shape errs

/-- **C4.** The effective parallelism equals `request.parallelism` when
positive, and the default 5 when the field is 0 (its value when omitted). -/
theorem effectiveParallelism_resolution (p : Int) :
    (0 < p → effectiveParallelism p = p) ∧
    (p = 0 → effectiveParallelism p = 5) := by
  constructor
  · intro h
    unfold effectiveParallelism
    rw [if_neg (by omega)]
  · intro h
    simp [effectiveParallelism, h]

/-- Witness for `effectiveParallelism_resolution` at 3 and 0. -/
theorem effectiveParallelism_resolution_witness :
    ((0 : Int) < 3 ∧ effectiveParallelism 3 = 3) ∧
    ((0 : Int) = 0 ∧ effectiveParallelism 0 = 5) :=
  ⟨⟨by decide, (effectiveParallelism_resolution 3).1 (by decide)⟩,
   ⟨rfl, (effectiveParallelism_resolution 0).2 rfl⟩⟩

/-! ### Idle pools

A pool whose workers are all idle and whose queue is empty can never
move; in particular a pool with zero workers and a non-empty queue never
produces a single result. -/

lemma replicate_none_getElem {α : Type} :
    ∀ (n w : Nat) (o : Option α),
    (List.replicate n (none : Option α))[w]? = some o → o = none := by
  intro n
  induction n with
  | zero => intro w o h; simp at h
  | succ n ih =>
    intro w o h
    cases w with
    | zero => simp [List.replicate_succ] at h; exact h.symm
    | succ w =>
      rw [List.replicate_succ] at h
      simp only [List.getElem?_cons_succ] at h
      exact ih w o h

lemma step_idle (copy : Mirror → Option String) (n : Nat)
    (res : List (Option MirrorError)) (a : PoolAction) :
    step copy ⟨[], List.replicate n none, res⟩ a =
      ⟨[], List.replicate n none, res⟩ := by
  cases a with
  | claim w =>
    simp only [step]
    split
    · next j rest hget hq => exact absurd hq (by simp)
    · rfl
  | finish w =>
    simp only [step]
    split
    · next i m hget =>
      exact absurd (replicate_none_getElem n w _ hget) (by simp)
    · rfl

lemma runPool_idle (copy : Mirror → Option String) (n : Nat)
    (res : List (Option MirrorError)) :
    ∀ sched, runPool copy sched ⟨[], List.replicate n none, res⟩ =
      ⟨[], List.replicate n none, res⟩ := by
  intro sched
  induction sched with
  | nil => rfl
  | cons a rest ih =>
    simp only [runPool, List.foldl_cons, step_idle]
    exact ih

lemma step_no_workers (copy : Mirror → Option String)
    (q : List (Nat × Mirror)) (res : List (Option MirrorError))
    (a : PoolAction) : step copy ⟨q, [], res⟩ a = ⟨q, [], res⟩ := by
  cases a with
  | claim w => simp [step]
  | finish w => simp [step]

lemma runPool_no_workers (copy : Mirror → Option String)
    (q : List (Nat × Mirror)) (res : List (Option MirrorError)) :
    ∀ sched, runPool copy sched ⟨q, [], res⟩ = ⟨q, [], res⟩ := by
  intro sched
  induction sched with
  | nil => rfl
  | cons a rest ih =>
    simp only [runPool, List.foldl_cons, step_no_workers]
    exact ih

/-- **C9.** A negative `parallelism` with a non-empty `mirrors` array
starts zero workers, so no schedule can ever deliver a result: the drain
loop blocks forever and the handler never produces a response. -/
theorem negative_parallelism_never_responds (copy : Mirror → Option String)
    (req : Request) (h1 : req.Parallelism < 0) (h2 : req.Mirrors ≠ []) :
    workersSpawned req = 0 ∧
    ∀ sched, handleRequest copy req sched = none := by
  have hw : workersSpawned req = 0 := by
    unfold workersSpawned effectiveParallelism
    rw [if_neg (by omega)]
    exact Int.toNat_of_nonpos h1.le
  refine ⟨hw, ?_⟩
  intro sched
  unfold handleRequest
  rw [hw]
  simp only [initState, List.replicate]
  rw [runPool_no_workers]
  simp [eq_comm, List.length_eq_zero, h2]

/-- Witness for `negative_parallelism_never_responds` at a concrete
request with `parallelism = -1` and one mirror. -/
theorem negative_parallelism_never_responds_witness :
    (Request.mk [Mirror.mk "postgres" "example.com/r/postgres"] (-1)).Parallelism < 0 ∧
    (Request.mk [Mirror.mk "postgres" "example.com/r/postgres"] (-1)).Mirrors ≠ [] ∧
    (workersSpawned (Request.mk [Mirror.mk "postgres" "example.com/r/postgres"] (-1)) = 0 ∧
     ∀ sched, handleRequest (fun _ => none)
       (Request.mk [Mirror.mk "postgres" "example.com/r/postgres"] (-1)) sched = none) :=
  ⟨by decide, by decide,
   negative_parallelism_never_responds (fun _ => none) _ (by decide) (by decide)⟩

/-! ### The empty batch and negative parallelism -/

/-- **C6 (amended).** An empty `mirrors` array yields `{ok: true}` with an
empty error list under every schedule — but the handler still spawns
`effectiveParallelism(parallelism)` worker goroutines (5 by default): the
spawn loop on line 148 runs regardless of the batch size. The workers
merely find the closed jobs channel empty and execute nothing. -/
theorem empty_mirrors_ok_but_workers_spawned (copy : Mirror → Option String)
    (p : Int) (sched : List PoolAction) :
    handleRequest copy ⟨[], p⟩ sched = some ⟨true, []⟩ ∧
    workersSpawned ⟨[], p⟩ = (effectiveParallelism p).toNat ∧
    (runPool copy sched
      (initState (workersSpawned ⟨[], p⟩) (enumFrom 0 ([] : List Mirror)))).results
      = [] := by
  have hidle := runPool_idle copy (workersSpawned ⟨[], p⟩) [] sched
  refine ⟨?_, rfl, ?_⟩
  · unfold handleRequest
    simp only [enumFrom, initState] at hidle ⊢
    rw [hidle]
    rfl
  · simp only [enumFrom, initState] at hidle ⊢
    rw [hidle]

/-- **C6 (counterexample).** For the concrete empty-mirrors request the
response is `{ok: true}`, but the number of spawned workers is 5, not 0:
the claim that no workers are spun up is false on the code. -/
theorem empty_mirrors_counterexample :
    (Request.mk [] 0).Mirrors = [] ∧
    handleRequest (fun _ => none) (Request.mk [] 0) [] = some ⟨true, []⟩ ∧
    workersSpawned (Request.mk [] 0) = 5 ∧
    ¬ workersSpawned (Request.mk [] 0) = 0 := by
  refine ⟨rfl, rfl, by decide, by decide⟩

/-- **C5 (amended).** A negative `parallelism` is not rejected: the check
on line 142 replaces only an exact 0 by the default, so a negative value
is kept as-is, and the spawn loop then starts zero workers. (Decoding a
body with a negative `parallelism` succeeds; see the counterexample.) -/
theorem negative_parallelism_not_rejected (p : Int) (h : p < 0) :
    effectiveParallelism p = p ∧
    ∀ ms : List Mirror, workersSpawned ⟨ms, p⟩ = 0 := by
  constructor
  · unfold effectiveParallelism
    rw [if_neg (by omega)]
  · intro ms
    unfold workersSpawned effectiveParallelism
    simp only
    rw [if_neg (by omega)]
    exact Int.toNat_of_nonpos h.le

/-- Witness for `negative_parallelism_not_rejected` at `p = -1`. -/
theorem negative_parallelism_not_rejected_witness :
    (-1 : Int) < 0 ∧ effectiveParallelism (-1) = -1 ∧
    workersSpawned ⟨[], -1⟩ = 0 :=
  ⟨by decide, (negative_parallelism_not_rejected (-1) (by decide)).1,
   (negative_parallelism_not_rejected (-1) (by decide)).2 []⟩

/-- The concrete request body `{"mirrors":[],"parallelism":-1}`. -/
def negParBody : List Char :=
  "\x7b\"mirrors\":[],\"parallelism\":-1\x7d".toList

/-- **C5 (counterexample).** The concrete body with `parallelism = -1`
decodes successfully — it is not rejected as malformed input — and the
handler even answers it with a 200 `{ok: true}` response (the mirrors
array being empty, the drain loop needs no results). -/
theorem negative_parallelism_counterexample :
    decodeJSON negParBody = .ok ⟨[], -1⟩ ∧
    handleMirror (fun _ => none) negParBody [] = .response ⟨true, []⟩ :=
  ⟨rfl, rfl⟩

/-! ### Per-job error entries -/

lemma handleRequest_some_spec (copy : Mirror → Option String)
    (req : Request) (sched : List PoolAction) (r : Response)
    (h : handleRequest copy req sched = some r) :
    r = buildResponse ((runPool copy sched
        (initState (workersSpawned req) (enumFrom 0 req.Mirrors))).results.filterMap id) ∧
    (runPool copy sched
        (initState (workersSpawned req) (enumFrom 0 req.Mirrors))).results.length
      = req.Mirrors.length := by
  unfold handleRequest at h
  simp only at h
  split at h
  · next hc =>
    injection h with h
    exact ⟨h.symm, hc⟩
  · exact Option.noConfusion h

lemma handleRequest_errors_perm (copy : Mirror → Option String)
    (req : Request) (sched : List PoolAction) (r : Response)
    (h : handleRequest copy req sched = some r) :
    r.Errors.Perm ((enumFrom 0 req.Mirrors).filterMap (jobOutcome copy)) := by
  obtain ⟨hr, hlen⟩ := handleRequest_some_spec copy req sched r h
  have hinv := poolInv_runPool copy (enumFrom 0 req.Mirrors) sched _
    (poolInv_init copy (workersSpawned req) (enumFrom 0 req.Mirrors))
  have hperm := results_perm_of_length copy _ _ hinv
    (by rw [hlen, enumFrom_length])
  rw [hr, buildResponse_errors]
  have hfm := hperm.filterMap id
  simpa [List.filterMap_map, Function.comp] using hfm

lemma filterMap_jobOutcome_lb (copy : Mirror → Option String) :
    ∀ (ms : List Mirror) (n : Nat) (e : MirrorError),
    e ∈ (enumFrom n ms).filterMap (jobOutcome copy) → n ≤ e.Index := by
  intro ms
  induction ms with
  | nil => intro n e he; simp [enumFrom] at he
  | cons m tl ih =>
    intro n e he
    simp only [enumFrom, List.filterMap_cons] at he
    cases hc : copy m with
    | none =>
      rw [show jobOutcome copy (n, m) = none from by
        simp [jobOutcome, runJob, hc]] at he
      have := ih (n + 1) e he
      omega
    | some msg =>
      rw [show jobOutcome copy (n, m) = some ⟨n, m.Name, msg⟩ from by
        simp [jobOutcome, runJob, hc]] at he
      rcases List.mem_cons.mp he with rfl | he2
      · exact le_refl n
      · have := ih (n + 1) e he2
        omega

lemma filterMap_jobOutcome_countP (copy : Mirror → Option String) :
    ∀ (ms : List Mirror) (n i : Nat) (hi : i < ms.length),
    ((enumFrom n ms).filterMap (jobOutcome copy)).countP
        (fun e => e.Index == n + i)
      = if (copy (ms.get ⟨i, hi⟩)).isSome then 1 else 0 := by
  intro ms
  induction ms with
  | nil => intro n i hi; simp at hi
  | cons m tl ih =>
    intro n i hi
    simp only [enumFrom, List.filterMap_cons]
    cases i with
    | zero =>
      have hz : ∀ e ∈ (enumFrom (n + 1) tl).filterMap (jobOutcome copy),
          ¬ ((fun e => e.Index == n + 0) e = true) := by
        intro e he hbe
        have := filterMap_jobOutcome_lb copy tl (n + 1) e he
        simp only [beq_iff_eq] at hbe
        omega
      cases hc : copy m with
      | none =>
        rw [show jobOutcome copy (n, m) = none from by
          simp [jobOutcome, runJob, hc]]
        rw [List.countP_eq_zero.mpr hz]
        simp [hc]
      | some msg =>
        rw [show jobOutcome copy (n, m) = some ⟨n, m.Name, msg⟩ from by
          simp [jobOutcome, runJob, hc]]
        rw [List.countP_cons]
        rw [List.countP_eq_zero.mpr hz]
        simp [hc]
    | succ i =>
      have hi2 : i < tl.length := by simpa using hi
      have hrec := ih (n + 1) i hi2
      have hshift : n + 1 + i = n + (i + 1) := by omega
      cases hc : copy m with
      | none =>
        rw [show jobOutcome copy (n, m) = none from by
          simp [jobOutcome, runJob, hc]]
        rw [← hshift]
        rw [hrec]
        rfl
      | some msg =>
        rw [show jobOutcome copy (n, m) = some ⟨n, m.Name, msg⟩ from by
          simp [jobOutcome, runJob, hc]]
        rw [List.countP_cons]
        rw [← hshift, hrec]
        have : ((⟨n, m.Name, msg⟩ : MirrorError).Index == n + 1 + i) = false := by
          simp
          omega
        rw [this]
        rfl

lemma filterMap_jobOutcome_mem_eq (copy : Mirror → Option String) :
    ∀ (ms : List Mirror) (n i : Nat) (hi : i < ms.length) (e : MirrorError),
    e ∈ (enumFrom n ms).filterMap (jobOutcome copy) → e.Index = n + i →
    jobOutcome copy (n + i, ms.get ⟨i, hi⟩) = some e := by
  intro ms
  induction ms with
  | nil => intro n i hi; simp at hi
  | cons m tl ih =>
    intro n i hi e he hidx
    simp only [enumFrom, List.filterMap_cons] at he
    cases i with
    | zero =>
      cases hc : copy m with
      | none =>
        rw [show jobOutcome copy (n, m) = none from by
          simp [jobOutcome, runJob, hc]] at he
        have := filterMap_jobOutcome_lb copy tl (n + 1) e he
        omega
      | some msg =>
        rw [show jobOutcome copy (n, m) = some ⟨n, m.Name, msg⟩ from by
          simp [jobOutcome, runJob, hc]] at he
        rcases List.mem_cons.mp he with rfl | he2
        · simp [jobOutcome, runJob, hc]
        · have := filterMap_jobOutcome_lb copy tl (n + 1) e he2
          omega
    | succ i =>
      have hi2 : i < tl.length := by simpa using hi
      have hshift : n + 1 + i = n + (i + 1) := by omega
      cases hc : copy m with
      | none =>
        rw [show jobOutcome copy (n, m) = none from by
          simp [jobOutcome, runJob, hc]] at he
        have := ih (n + 1) i hi2 e he (by omega)
        rw [hshift] at this
        exact this
      | some msg =>
        rw [show jobOutcome copy (n, m) = some ⟨n, m.Name, msg⟩ from by
          simp [jobOutcome, runJob, hc]] at he
        rcases List.mem_cons.mp he with rfl | he2
        · simp at hidx
        · have := ih (n + 1) i hi2 e he2 (by omega)
          rw [hshift] at this
          exact this

/-- **C3.** For the job at position `i`: if the copy succeeds, no entry
with index `i` appears in `errors`; if it fails with message `msg`,
exactly one entry with index `i` appears, and that entry is
`{index: i, name: "(src to dst)", error: msg}`. -/
theorem per_job_error_entries (copy : Mirror → Option String)
    (req : Request) (sched : List PoolAction) (r : Response) (i : Nat)
    (hi : i < req.Mirrors.length)
    (h : handleRequest copy req sched = some r) :
    (copy (req.Mirrors.get ⟨i, hi⟩) = none →
      ∀ e ∈ r.Errors, e.Index ≠ i) ∧
    (∀ msg, copy (req.Mirrors.get ⟨i, hi⟩) = some msg →
      r.Errors.countP (fun e => e.Index == i) = 1 ∧
      ∀ e ∈ r.Errors, e.Index = i →
        e = ⟨i, (req.Mirrors.get ⟨i, hi⟩).Name, msg⟩) := by
  have hperm := handleRequest_errors_perm copy req sched r h
  constructor
  · intro hc e he hei
    simp only [List.get_eq_getElem] at hc
    have hmem := hperm.mem_iff.mp he
    have := filterMap_jobOutcome_mem_eq copy req.Mirrors 0 i hi e hmem
      (by omega)
    rw [show (0 : Nat) + i = i from by omega] at this
    rw [jobOutcome] at this
    simp [runJob, hc] at this
  · intro msg hc
    constructor
    · have hcount := hperm.countP_eq (fun e => e.Index == i)
      have hC := filterMap_jobOutcome_countP copy req.Mirrors 0 i hi
      rw [show (0 : Nat) + i = i from by omega] at hC
      rw [hcount, hC, hc]
      rfl
    · intro e he hei
      have hmem := hperm.mem_iff.mp he
      have := filterMap_jobOutcome_mem_eq copy req.Mirrors 0 i hi e hmem
        (by omega)
      rw [show (0 : Nat) + i = i from by omega] at this
      rw [jobOutcome] at this
      simp only [runJob] at this
      rw [hc] at this
      simp only [Option.map_some'] at this
      injection this with this
      exact this.symm

/-! ### Decode-failure classification at the handler level -/

/-- **C8.** Whenever decoding reports an unknown top-level field `k`
(the first problem the decoder meets while filling the `Request` struct
with `DisallowUnknownFields` set), the handler responds HTTP 400 with a
message naming that field, quotes included. -/
theorem unknown_field_rejected (body : List Char) (k : String)
    (h : decodeCore body = .error (.unknownField k)) :
    ∀ (copy : Mirror → Option String) (sched : List PoolAction),
    handleMirror copy body sched =
      .httpError 400
        ("Request body contains unknown field \"" ++ k ++ "\"") := by
  intro copy sched
  have hd : decodeJSON body =
      .error ⟨400, "Request body contains unknown field \"" ++ k ++ "\""⟩ := by
    unfold decodeJSON
    rw [h]
    rfl
  unfold handleMirror
  rw [hd]

/-- The concrete body `{"mirrors":[],"oops":1}`. -/
def oopsBody : List Char := "\x7b\"mirrors\":[],\"oops\":1\x7d".toList

/-- Witness for `unknown_field_rejected` on `oopsBody`. -/
theorem unknown_field_rejected_witness :
    decodeCore oopsBody = .error (.unknownField "oops") ∧
    handleMirror (fun _ => none) oopsBody [] =
      .httpError 400 "Request body contains unknown field \"oops\"" := by
  refine ⟨rfl, ?_⟩
  rw [unknown_field_rejected oopsBody "oops" rfl (fun _ => none) []]
  rfl

/-- **C10.** A body whose first JSON value is a well-formed object with
only known fields, followed by arbitrary trailing bytes, decodes
successfully — `dec.Decode` is called once and never inspects the
remainder — and the request is processed exactly as if the trailing
bytes were absent. -/
theorem trailing_bytes_ignored (body rest : List Char) (req : Request)
    (h : decodeCore body = .ok (req, rest)) :
    decodeJSON body = .ok req ∧
    ∀ (copy : Mirror → Option String) (sched : List PoolAction),
      handleMirror copy body sched =
        (match handleRequest copy req sched with
         | some r => .response r
         | none => .noResponse) := by
  have hd : decodeJSON body = .ok req := by
    unfold decodeJSON
    rw [h]
  refine ⟨hd, ?_⟩
  intro copy sched
  unfold handleMirror
  rw [hd]

/-- A well-formed object body with only known fields. -/
def c10Good : List Char :=
  "\x7b\"mirrors\":[\x7b\"src\":\"postgres\",\"dst\":\"example.com/r/postgres\"\x7d],\"parallelism\":2\x7d".toList

/-- Arbitrary trailing bytes, not themselves valid JSON. -/
def c10Junk : List Char := " trailing garbage ]\x7d\x7b".toList

/-- Witness for `trailing_bytes_ignored`: the concrete body with junk
after the object decodes to the object alone, the junk coming back as the
unread remainder. -/
theorem trailing_bytes_ignored_witness :
    decodeCore (c10Good ++ c10Junk) =
      .ok (⟨[⟨"postgres", "example.com/r/postgres"⟩], 2⟩, c10Junk) ∧
    c10Junk ≠ [] ∧
    decodeJSON (c10Good ++ c10Junk) =
      .ok ⟨[⟨"postgres", "example.com/r/postgres"⟩], 2⟩ :=
  ⟨rfl, by decide,
   (trailing_bytes_ignored (c10Good ++ c10Junk) c10Junk _ rfl).1⟩

/-! ### The size limit -/

/-- A body larger than the limit whose first JSON value is nonetheless
complete within the first kilobytes: a small object followed by a megabyte
of padding. -/
def paddedBody : List Char :=
  "\x7b\"mirrors\":[]\x7d".toList ++ List.replicate 1100000 ' '

/-- **C7 (counterexample).** `paddedBody` exceeds 1,048,576 bytes, yet the
handler does not answer 413: the decoder stops reading after the first
JSON value, never touches the padding, and the request is served normally
with HTTP 200. -/
theorem oversized_body_counterexample :
    readLimit < paddedBody.length ∧
    decodeJSON paddedBody = .ok ⟨[], 0⟩ ∧
    handleMirror (fun _ => none) paddedBody [] = .response ⟨true, []⟩ := by
  refine ⟨?_, rfl, rfl⟩
  rw [paddedBody, List.length_append, List.length_replicate]
  norm_num [readLimit]

lemma skipWs_replicate_space : ∀ (b n pos : Nat), b < n →
    skipWs (List.replicate n ' ') b pos = .error .tooLarge := by
  intro b
  induction b with
  | zero =>
    intro n pos h
    obtain ⟨n2, rfl⟩ : ∃ n2, n = n2 + 1 := ⟨n - 1, by omega⟩
    rw [List.replicate_succ]
    simp [skipWs]
  | succ b ih =>
    intro n pos h
    obtain ⟨n2, rfl⟩ : ∃ n2, n = n2 + 1 := ⟨n - 1, by omega⟩
    rw [List.replicate_succ]
    simp only [skipWs]
    rw [if_pos (by simp)]
    exact ih n2 (pos + 1) (by omega)

/-- Two megabytes of whitespace: the decoder must read past the limit
while still scanning for the first value. -/
def hugeWsBody : List Char := List.replicate 2000000 ' '

lemma decodeCore_replicate_space (n : Nat) (h : readLimit < n) :
    decodeCore (List.replicate n ' ') = .error .tooLarge := by
  unfold decodeCore
  rw [skipWs_replicate_space readLimit n 0 h]

lemma decodeCore_hugeWsBody : decodeCore hugeWsBody = .error .tooLarge :=
  decodeCore_replicate_space 2000000 (by norm_num [readLimit])

/-- **C7 (amended).** The 413 response with message "Request body must
not be larger than 1MB" is produced exactly when the decoder has to read
beyond the 1,048,576-byte `MaxBytesReader` budget while scanning the
first JSON value of the body. -/
theorem oversized_read_rejected (body : List Char)
    (h : decodeCore body = .error .tooLarge) :
    ∀ (copy : Mirror → Option String) (sched : List PoolAction),
    handleMirror copy body sched =
      .httpError 413 "Request body must not be larger than 1MB" := by
  intro copy sched
  have hd : decodeJSON body =
      .error ⟨413, "Request body must not be larger than 1MB"⟩ := by
    unfold decodeJSON
    rw [h]
    rfl
  unfold handleMirror
  rw [hd]

/-- Witness for `oversized_read_rejected` on the two-megabyte whitespace
body. -/
theorem oversized_read_rejected_witness :
    decodeCore hugeWsBody = .error .tooLarge ∧
    handleMirror (fun _ => none) hugeWsBody [] =
      .httpError 413 "Request body must not be larger than 1MB" :=
  ⟨decodeCore_hugeWsBody,
   oversized_read_rejected hugeWsBody decodeCore_hugeWsBody (fun _ => none) []⟩

/-! ### Remaining concrete witnesses -/

/-- Witness for `handleMirror_collects_all_outcomes` at a one-job request
with `parallelism = 1`. -/
theorem handleMirror_collects_all_outcomes_witness :
    1 ≤ workersSpawned ⟨[⟨"postgres", "example.com/r/postgres"⟩], 1⟩ ∧
    (∃ sched, handleRequest (fun _ => none)
        ⟨[⟨"postgres", "example.com/r/postgres"⟩], 1⟩ sched =
      some (buildResponse
        (((enumFrom 0 [⟨"postgres", "example.com/r/postgres"⟩]).map
          (jobOutcome (fun _ => none))).filterMap id))) :=
  ⟨by decide,
   (handleMirror_collects_all_outcomes (fun _ => none) _ (by decide)).2⟩

/-- The concrete body `{"mirrors":[]}`. -/
def emptyMirrorsBody : List Char := "\x7b\"mirrors\":[]\x7d".toList

/-- Witness for `response_ok_iff_no_errors` on the empty-mirrors body. -/
theorem response_ok_iff_no_errors_witness :
    handleMirror (fun _ => none) emptyMirrorsBody [] =
      .response ⟨true, []⟩ ∧
    (((⟨true, []⟩ : Response).OK = true ↔
        (⟨true, []⟩ : Response).Errors = []) ∧
     ((⟨true, []⟩ : Response).OK = true →
        marshalResponse ⟨true, []⟩ = "\x7b\"ok\":true\x7d")) :=
  ⟨rfl, response_ok_iff_no_errors (fun _ => none) emptyMirrorsBody []
    ⟨true, []⟩ rfl⟩

/-- A copy oracle that fails exactly on source `"bad"`. -/
def copyFailBad : Mirror → Option String :=
  fun m => if m.Src = "bad" then some "unauthorized" else none

/-- Witness for `per_job_error_entries`: a two-job batch whose second job
fails, run serially by one worker. -/
theorem per_job_error_entries_witness :
    (1 < (Request.mk [Mirror.mk "good" "d0", Mirror.mk "bad" "d1"] 1).Mirrors.length) ∧
    handleRequest copyFailBad
        (Request.mk [Mirror.mk "good" "d0", Mirror.mk "bad" "d1"] 1)
        (serialSched 2) =
      some ⟨false, [⟨1, "(bad to d1)", "unauthorized"⟩]⟩ ∧
    ((copyFailBad ((Request.mk [Mirror.mk "good" "d0", Mirror.mk "bad" "d1"] 1).Mirrors.get
        ⟨1, by decide⟩) = none →
      ∀ e ∈ (Response.mk false [⟨1, "(bad to d1)", "unauthorized"⟩]).Errors,
        e.Index ≠ 1) ∧
     (∀ msg, copyFailBad ((Request.mk [Mirror.mk "good" "d0", Mirror.mk "bad" "d1"] 1).Mirrors.get
        ⟨1, by decide⟩) = some msg →
      (Response.mk false [⟨1, "(bad to d1)", "unauthorized"⟩]).Errors.countP
          (fun e => e.Index == 1) = 1 ∧
      ∀ e ∈ (Response.mk false [⟨1, "(bad to d1)", "unauthorized"⟩]).Errors,
        e.Index = 1 →
        e = ⟨1, ((Request.mk [Mirror.mk "good" "d0", Mirror.mk "bad" "d1"] 1).Mirrors.get
          ⟨1, by decide⟩).Name, msg⟩)) :=
  ⟨by decide, rfl,
   per_job_error_entries copyFailBad
     (Request.mk [Mirror.mk "good" "d0", Mirror.mk "bad" "d1"] 1)
     (serialSched 2) ⟨false, [⟨1, "(bad to d1)", "unauthorized"⟩]⟩ 1
     (by decide) rfl⟩
